import Mathlib

/-!
Verification of the sanctions-screening core (matching, scoring,
false-positive filtering and decision pipeline) against its specification.
The Python sources are embedded shallowly: scores are rationals, Python
dictionaries with optional keys become structures with `Option` fields,
and code paths that can raise return `Except`.

Rational arithmetic is routed through `Rat.divInt`-based helpers
(`qAdd`, `qMul`, …) that the kernel can evaluate on closed inputs; bridge
lemmas identify them with the ordinary field operations for abstract
reasoning.
-/

namespace SLST

/-! ## Kernel-evaluable rational arithmetic -/

/-- Embedding of a natural number into ℚ by an evaluable route. -/
def qOfNat (n : Nat) : ℚ := Rat.divInt (Int.ofNat n) 1

/-- Evaluable rational addition. -/
def qAdd (a b : ℚ) : ℚ :=
  Rat.divInt (a.num * b.den + b.num * a.den) (a.den * b.den)

/-- Evaluable rational subtraction. -/
def qSub (a b : ℚ) : ℚ :=
  Rat.divInt (a.num * b.den - b.num * a.den) (a.den * b.den)

/-- Evaluable rational multiplication. -/
def qMul (a b : ℚ) : ℚ :=
  Rat.divInt (a.num * b.num) (a.den * b.den)

/-- Evaluable rational division (total, with division by zero giving 0,
as for the field operation). -/
def qDiv (a b : ℚ) : ℚ :=
  Rat.divInt (a.num * b.den) (a.den * b.num)

/-- Evaluable comparison `a ≤ b` by cross-multiplication. -/
def qLe (a b : ℚ) : Bool :=
  decide (a.num * (b.den : Int) ≤ b.num * (a.den : Int))

/-- Evaluable comparison `a < b` by cross-multiplication. -/
def qLt (a b : ℚ) : Bool :=
  decide (a.num * (b.den : Int) < b.num * (a.den : Int))

/-- Evaluable minimum. -/
def qMin (a b : ℚ) : ℚ := if qLe a b then a else b

/-- Evaluable maximum. -/
def qMax (a b : ℚ) : ℚ := if qLe a b then b else a

theorem qOfNat_eq (n : Nat) : qOfNat n = (n : ℚ) := by
  simp [qOfNat, Rat.divInt_eq_div]

theorem qAdd_eq (a b : ℚ) : qAdd a b = a + b := by
  have ha : ((a.den : ℚ)) ≠ 0 := Nat.cast_ne_zero.mpr a.den_nz
  have hb : ((b.den : ℚ)) ≠ 0 := Nat.cast_ne_zero.mpr b.den_nz
  have hA : (a.num : ℚ) = a * a.den := (div_eq_iff ha).mp (Rat.num_div_den a)
  have hB : (b.num : ℚ) = b * b.den := (div_eq_iff hb).mp (Rat.num_div_den b)
  rw [qAdd, Rat.divInt_eq_div]
  push_cast
  field_simp
  rw [hA, hB]
  ring

theorem qSub_eq (a b : ℚ) : qSub a b = a - b := by
  have ha : ((a.den : ℚ)) ≠ 0 := Nat.cast_ne_zero.mpr a.den_nz
  have hb : ((b.den : ℚ)) ≠ 0 := Nat.cast_ne_zero.mpr b.den_nz
  have hA : (a.num : ℚ) = a * a.den := (div_eq_iff ha).mp (Rat.num_div_den a)
  have hB : (b.num : ℚ) = b * b.den := (div_eq_iff hb).mp (Rat.num_div_den b)
  rw [qSub, Rat.divInt_eq_div]
  push_cast
  field_simp
  rw [hA, hB]
  ring

theorem qMul_eq (a b : ℚ) : qMul a b = a * b := by
  have ha : ((a.den : ℚ)) ≠ 0 := Nat.cast_ne_zero.mpr a.den_nz
  have hb : ((b.den : ℚ)) ≠ 0 := Nat.cast_ne_zero.mpr b.den_nz
  have hA : (a.num : ℚ) = a * a.den := (div_eq_iff ha).mp (Rat.num_div_den a)
  have hB : (b.num : ℚ) = b * b.den := (div_eq_iff hb).mp (Rat.num_div_den b)
  rw [qMul, Rat.divInt_eq_div]
  push_cast
  field_simp
  rw [hA, hB]
  ring

theorem qDiv_eq (a b : ℚ) : qDiv a b = a / b := by
  rcases eq_or_ne b 0 with hb0 | hb0
  · subst hb0
    simp [qDiv, Rat.divInt_eq_div]
  · have ha : ((a.den : ℚ)) ≠ 0 := Nat.cast_ne_zero.mpr a.den_nz
    have hb : ((b.den : ℚ)) ≠ 0 := Nat.cast_ne_zero.mpr b.den_nz
    have hbn : ((b.num : ℚ)) ≠ 0 := by
      exact_mod_cast Rat.num_ne_zero.mpr hb0
    have hA : (a.num : ℚ) = a * a.den := (div_eq_iff ha).mp (Rat.num_div_den a)
    have hB : (b.num : ℚ) = b * b.den := (div_eq_iff hb).mp (Rat.num_div_den b)
    rw [qDiv, Rat.divInt_eq_div]
    push_cast
    rw [div_eq_div_iff (mul_ne_zero ha hbn) hb0]
    rw [hA, hB]
    ring

theorem qLe_iff (a b : ℚ) : qLe a b = true ↔ a ≤ b := by
  have ha : (0 : ℚ) < (a.den : ℚ) := by exact_mod_cast a.pos
  have hb : (0 : ℚ) < (b.den : ℚ) := by exact_mod_cast b.pos
  rw [qLe, decide_eq_true_eq]
  constructor
  · intro h
    have h2 : ((a.num : ℚ)) * b.den ≤ ((b.num : ℚ)) * a.den := by exact_mod_cast h
    have := (div_le_div_iff₀ ha hb).mpr h2
    rwa [Rat.num_div_den, Rat.num_div_den] at this
  · intro h
    have h2 : (a.num : ℚ) / a.den ≤ (b.num : ℚ) / b.den := by
      rwa [Rat.num_div_den, Rat.num_div_den]
    have := (div_le_div_iff₀ ha hb).mp h2
    exact_mod_cast this

theorem qLt_iff (a b : ℚ) : qLt a b = true ↔ a < b := by
  have ha : (0 : ℚ) < (a.den : ℚ) := by exact_mod_cast a.pos
  have hb : (0 : ℚ) < (b.den : ℚ) := by exact_mod_cast b.pos
  rw [qLt, decide_eq_true_eq]
  constructor
  · intro h
    have h2 : ((a.num : ℚ)) * b.den < ((b.num : ℚ)) * a.den := by exact_mod_cast h
    have := (div_lt_div_iff₀ ha hb).mpr h2
    rwa [Rat.num_div_den, Rat.num_div_den] at this
  · intro h
    have h2 : (a.num : ℚ) / a.den < (b.num : ℚ) / b.den := by
      rwa [Rat.num_div_den, Rat.num_div_den]
    have := (div_lt_div_iff₀ ha hb).mp h2
    exact_mod_cast this

theorem qLe_eq (a b : ℚ) : qLe a b = decide (a ≤ b) := by
  rcases h : qLe a b with _ | _
  · have : ¬ a ≤ b := fun hc => by
      have := (qLe_iff a b).mpr hc
      rw [h] at this
      exact Bool.false_ne_true this
    simp [this]
  · have := (qLe_iff a b).mp h
    simp [this]

theorem qLt_eq (a b : ℚ) : qLt a b = decide (a < b) := by
  rcases h : qLt a b with _ | _
  · have : ¬ a < b := fun hc => by
      have := (qLt_iff a b).mpr hc
      rw [h] at this
      exact Bool.false_ne_true this
    simp [this]
  · have := (qLt_iff a b).mp h
    simp [this]

theorem qMin_eq (a b : ℚ) : qMin a b = min a b := by
  rw [qMin, qLe_eq, min_def]
  rcases le_or_lt a b with h | h
  · simp [h]
  · simp [not_le.mpr h, le_of_lt h]

theorem qMax_eq (a b : ℚ) : qMax a b = max a b := by
  rw [qMax, qLe_eq, max_def]
  rcases le_or_lt a b with h | h
  · simp [h]
  · simp [not_le.mpr h, le_of_lt h]

/-! ## Python-style string helpers

Core string functions built on `Substring` positions do not evaluate
inside the kernel, so the Python string operations are implemented
directly over character lists. -/

/-- Python `str.lower()`. -/
def pyLower (s : String) : String := String.mk (s.toList.map Char.toLower)

/-- Python `str.upper()`. -/
def pyUpper (s : String) : String := String.mk (s.toList.map Char.toUpper)

/-- Python `str.strip()`: trim leading/trailing whitespace. -/
def pyStrip (s : String) : String :=
  String.mk
    (((s.toList.dropWhile Char.isWhitespace).reverse.dropWhile
      Char.isWhitespace).reverse)

/-- Split character lists at separators chosen by a predicate, keeping
empty pieces (Python `re.split` behaviour on single separators). -/
def splitByAux (p : Char → Bool) : List Char → List Char → List (List Char)
  | [], acc => [acc.reverse]
  | c :: cs, acc =>
    if p c then acc.reverse :: splitByAux p cs []
    else splitByAux p cs (c :: acc)

/-- String split on a character predicate, keeping empty pieces. -/
def splitBy (p : Char → Bool) (s : String) : List String :=
  (splitByAux p s.toList []).map String.mk

/-- Python `str.split()` with no argument: split on whitespace runs,
dropping empty pieces. -/
def pySplit (s : String) : List String :=
  (splitBy Char.isWhitespace s).filter (fun t => t ≠ "")

/-- Python `part.split('-')`: split on each hyphen, keeping empties. -/
def splitHyphens (s : String) : List String := splitBy (fun c => c = '-') s

/-- Python `sep.join(l)`. -/
def joinWith (sep : String) : List String → String
  | [] => ""
  | [x] => x
  | x :: xs => x ++ sep ++ joinWith sep xs

/-- Python list membership for strings. -/
def strMem (s : String) (l : List String) : Bool := l.contains s

/-- Deduplication keeping first occurrences (models building a Python
set whose order is never observed). -/
def pyDedupAux (seen : List String) : List String → List String
  | [] => []
  | x :: xs =>
    if seen.contains x then pyDedupAux seen xs
    else x :: pyDedupAux (x :: seen) xs

/-- Deduplicate a list of strings, keeping first occurrences. -/
def pyDedup (l : List String) : List String := pyDedupAux [] l

/-- Lexicographic comparison of character lists by code point (Python
string `<`). -/
def listLexLt : List Char → List Char → Bool
  | [], [] => false
  | [], _ :: _ => true
  | _ :: _, [] => false
  | a :: xs, b :: ys => if a = b then listLexLt xs ys else decide (a < b)

/-- Python string `<` by an evaluable route. -/
def strLt (a b : String) : Bool := listLexLt a.toList b.toList

/-- Stable insertion into an alphabetically sorted string list. -/
def insertStr (x : String) : List String → List String
  | [] => [x]
  | y :: ys => if strLt x y then x :: y :: ys else y :: insertStr x ys

/-- Alphabetical sort of strings (Python `sorted`). -/
def sortStrs (l : List String) : List String := l.foldr insertStr []

/-- List `[0, 1, …, n-1]` by an evaluable route. -/
def natRange : Nat → List Nat
  | 0 => []
  | n + 1 => natRange n ++ [n]

/-- Check whether the first list is an initial segment of the second. -/
def listLeads : List Char → List Char → Bool
  | [], _ => true
  | _ :: _, [] => false
  | a :: xs, b :: ys => a = b && listLeads xs ys

/-- Auxiliary scan for substring containment. -/
def containsAux (needle : List Char) : List Char → Bool
  | [] => listLeads needle []
  | c :: cs => listLeads needle (c :: cs) || containsAux needle cs

/-- Python `needle in hay` on strings: substring containment (an empty
needle is contained in everything). -/
def strContains (hay needle : String) : Bool :=
  containsAux needle.toList hay.toList

/-! ## Preprocessing: TextCleaner (preprocessing/cleaner.py) -/

/-- ASCII punctuation set of Python `string.punctuation` with the
apostrophe removed, as built in `TextCleaner.__init__`. -/
def pyPunct : List Char :=
  ['!', '\"', '#', '$', '%', '&', '(', ')', '*', '+', ',', '-', '.',
   '/', ':', ';', '<', '=', '>', '?', '@', '[', '\\', ']', '^', '_',
   '\u0060', '\u007b', '|', '\u007d', '~']

/-- Map every whitespace character to a plain space (first half of the
`re.sub` whitespace collapse). -/
def wsToSpace (cs : List Char) : List Char :=
  cs.map (fun c => if c.isWhitespace then ' ' else c)

/-- Collapse adjacent spaces (second half of the `re.sub` whitespace
collapse). -/
def dedupSpaces : List Char → List Char
  | [] => []
  | [c] => [c]
  | a :: b :: cs =>
    if a = ' ' ∧ b = ' ' then dedupSpaces (b :: cs)
    else a :: dedupSpaces (b :: cs)

/-- The `re.sub` in `TextCleaner.clean` replacing whitespace runs by one
space. -/
def collapseWs (s : String) : String :=
  String.mk (dedupSpaces (wsToSpace s.toList))

/-- TextCleaner.clean: lower-case, collapse whitespace, strip punctuation
except apostrophes, trim. -/
def cleanText (text : String) : String :=
  if text = "" then ""
  else
    let t1 := pyLower text
    let t2 := collapseWs t1
    let t3 := String.mk (t2.toList.filter (fun c => ¬ pyPunct.contains c))
    pyStrip t3

/-- Honorific list of `TextCleaner.remove_titles`. -/
def titlesList : List String :=
  ["mr", "mrs", "ms", "miss", "dr", "prof", "sir", "lady",
   "lord", "sheikh", "imam", "mullah", "ayatollah"]

/-- TextCleaner.remove_titles. -/
def removeTitles (text : String) : String :=
  joinWith " " ((pySplit text).filter (fun w => ¬ strMem w titlesList))

/-- Stop-word list of `TextCleaner.remove_common_words`. -/
def stopWords : List String :=
  ["and", "or", "the", "of", "bin", "ibn", "abu", "al"]

/-- TextCleaner.remove_common_words. -/
def removeCommonWords (text : String) : String :=
  joinWith " " ((pySplit text).filter (fun w => ¬ strMem w stopWords))

/-! ## Preprocessing: NameNormalizer (preprocessing/normalizer.py) -/

/-- Word character in the sense of the regex `\b` boundary (`[a-z0-9_]`
after cleaning; Python `\w` restricted to the ASCII names handled here). -/
def isWordChar (c : Char) : Bool := c.isAlpha || c.isDigit || c = '_'

/-- Split a character list into maximal runs tagged by a predicate. -/
def runsBy (p : Char → Bool) (cs : List Char) : List (Bool × List Char) :=
  (cs.foldl
    (fun acc c =>
      match acc with
      | (b, run) :: rest =>
        if b = p c then (b, run ++ [c]) :: rest
        else (p c, [c]) :: (b, run) :: rest
      | [] => [(p c, [c])])
    []).reverse

/-- Rejoin runs into a character list. -/
def joinRuns (rs : List (Bool × List Char)) : List Char :=
  rs.foldr (fun r acc => r.2 ++ acc) []

/-- Modelled from the spec: `unidecode` (an external library) renders
non-Latin scripts to closest Latin letters and is the identity on the
ASCII names treated in this development; the guard for empty input is in
the source (`NameNormalizer.transliterate`). -/
def transliterate (text : String) : String :=
  if text = "" then "" else text

/-- The regex `\bal[\s\-]` → `"al "` of `normalize_arabic_names`: a word
run equal to `al` followed by a separator starting with whitespace or a
hyphen has that first separator character replaced by a space. -/
def alSpaceFix : List (Bool × List Char) → List (Bool × List Char)
  | (true, ['a', 'l']) :: (false, d :: ds) :: rest =>
    if d.isWhitespace ∨ d = '-' then
      (true, ['a', 'l']) :: (false, ' ' :: ds) :: alSpaceFix rest
    else
      (true, ['a', 'l']) :: (false, d :: ds) :: alSpaceFix rest
  | r :: rest => r :: alSpaceFix rest
  | [] => []

/-- Variant/standard pairs of `NameNormalizer.replacements`, flattened in
the iteration order of the nested loops. -/
def arabicPairs : List (String × String) :=
  [("muhammad", "mohammed"), ("mohamed", "mohammed"), ("mohammad", "mohammed"),
   ("abd", "abdul"), ("abdel", "abdul"), ("abdal", "abdul"),
   ("el", "al"), ("ul", "al"),
   ("bin", "ibn"), ("ben", "ibn")]

/-- One whole-word `re.sub` (`\bvariant\b` → standard) over tagged runs. -/
def replaceWordRun (v std : List Char) (rs : List (Bool × List Char)) :
    List (Bool × List Char) :=
  rs.map (fun r => if r.1 ∧ r.2 = v then (r.1, std) else r)

/-- NameNormalizer.normalize_arabic_names. -/
def normalizeArabicNames (text : String) : String :=
  let rs := alSpaceFix (runsBy isWordChar text.toList)
  let rs := arabicPairs.foldl
    (fun acc p => replaceWordRun p.1.toList p.2.toList acc) rs
  String.mk (joinRuns rs)

/-- Drop whitespace runs adjacent to the given character, with the last
non-whitespace character seen so far as context (models `\s*X\s*` → `X`). -/
def dropWsNear (t : Char) : Option Char → List (Bool × List Char) → List Char
  | _, [] => []
  | _, (false, r) :: rest => r ++ dropWsNear t r.getLast? rest
  | prev, (true, ws) :: rest =>
    let nextStart : Option Char :=
      match rest with
      | (_, c :: _) :: _ => some c
      | _ => none
    if prev = some t ∨ nextStart = some t then dropWsNear t prev rest
    else ws ++ dropWsNear t prev rest

/-- NameNormalizer.normalize_spacing: remove spaces around hyphens, then
around apostrophes. -/
def normalizeSpacing (text : String) : String :=
  let afterHyphen :=
    String.mk (dropWsNear '-' none (runsBy Char.isWhitespace text.toList))
  String.mk (dropWsNear '\'' none (runsBy Char.isWhitespace afterHyphen.toList))

/-- NameNormalizer.normalize: transliterate, Arabic-pattern replacement,
spacing normalization. -/
def normalizeName (text : String) : String :=
  if text = "" then ""
  else normalizeSpacing (normalizeArabicNames (transliterate text))

/-! ## Preprocessing: NameTokenizer (preprocessing/tokenizer.py) -/

/-- NameTokenizer.tokenize: split on whitespace, then split each part on
hyphens, keep tokens of length at least 2. -/
def tokenize (text : String) : List String :=
  if text = "" then []
  else
    let parts := (pySplit text).flatMap splitHyphens
    parts.filter (fun t => t.length ≥ 2)

/-- NameTokenizer.generate_ngrams for n = 2: adjacent-token bigrams. -/
def bigramsOf : List String → List String
  | a :: b :: rest => (a ++ " " ++ b) :: bigramsOf (b :: rest)
  | _ => []

/-- NameTokenizer.get_all_variants; the Python `set` is modelled as a
deduplicated list (its order is never observed downstream). -/
def getAllVariants (text : String) : List String :=
  let tokens := tokenize text
  let base := text :: tokens ++ (if tokens.length > 1 then bigramsOf tokens else [])
  pyDedup (base.filter (fun v => v ≠ ""))

/-- Query profile produced by `NameProcessor.process_single`. -/
structure QueryProfile where
  original : String
  cleaned : String
  normalized : String
  tokens : List String
  variants : List String
  deriving Repr, DecidableEq

/-- NameProcessor.process_single: clean, normalize, tokenize. -/
def processSingle (name : String) : QueryProfile :=
  if name = "" then
    { original := "", cleaned := "", normalized := "", tokens := [], variants := [] }
  else
    let cleaned := removeCommonWords (removeTitles (cleanText name))
    let normalized := normalizeName cleaned
    { original := name
      cleaned := cleaned
      normalized := normalized
      tokens := tokenize normalized
      variants := getAllVariants normalized }

/-! ## Configuration (config/thresholds.py) -/

def EXACT_MATCH_THRESHOLD : ℚ := 100
def HIGH_RISK_THRESHOLD : ℚ := 85
def MEDIUM_RISK_THRESHOLD : ℚ := 70
def LOW_RISK_THRESHOLD : ℚ := 60
def MIN_NAME_LENGTH : Nat := 3
def REQUIRE_MANUAL_REVIEW_ABOVE : ℚ := HIGH_RISK_THRESHOLD
def AUTO_CLEAR_BELOW : ℚ := LOW_RISK_THRESHOLD

/-- The dictionary `LIST_PRIORITIES`; `listPriorities s d` is
`LIST_PRIORITIES.get(s, d)` (the source reads it with default 50 in the
scorer and default 0 in the ranking key). -/
def listPriorities (source : String) (d : ℚ) : ℚ :=
  if source = "OFAC" then 100
  else if source = "UN" then 90
  else if source = "HMT" then 80
  else if source = "EU" then 70
  else d

/-! ## Similarity (matching/similarity.py)

The four raw metrics call the external `rapidfuzz` library; they are
modelled from the spec (section 4.2): edit-ratio is the normalized
Levenshtein similarity, partial-ratio the best-aligned substring
similarity, token-sort-ratio the edit-ratio of alphabetically sorted
token strings, and token-set-ratio the edit-ratio over deduplicated
intersection/remainder combinations.  The empty-input guards and the
0.3/0.2/0.3/0.2 weighting are from the source. -/

/-- One row update of the Levenshtein dynamic program: given the previous
row (aligned so that the head is the diagonal entry) and the value to the
left, produce the rest of the current row. -/
def levRowGo (c : Char) : List Char → List Nat → Nat → List Nat
  | b :: bs, pj1 :: pj :: ps, left =>
    let v := if c = b then pj1 else 1 + min pj1 (min pj left)
    v :: levRowGo c bs (pj :: ps) v
  | _, _, _ => []

/-- Full current row for character `c`, starting with the row index. -/
def levRow (c : Char) (bs : List Char) (prev : List Nat) (i : Nat) : List Nat :=
  i :: levRowGo c bs prev i

/-- Levenshtein edit distance via the row dynamic program. -/
def levDist (a b : List Char) : Nat :=
  let init := natRange (b.length + 1)
  let final := (a.foldl
    (fun (st : List Nat × Nat) c => (levRow c b st.1 (st.2 + 1), st.2 + 1))
    (init, 0)).1
  final.getLastD 0

/-- Modelled from the spec: edit-ratio — `100 × (1 − dist / max(len a, len b, 1))`
(`rapidfuzz.fuzz.ratio` is external); the empty-string guard is from
`SimilarityCalculator.levenshtein_ratio` in the source. -/
def levSim (s t : String) : ℚ :=
  if s = "" ∨ t = "" then 0
  else
    let m := Nat.max (Nat.max s.length t.length) 1
    qMul 100 (qSub 1 (qDiv (qOfNat (levDist s.toList t.toList)) (qOfNat m)))

/-- All windows of the longer string with the length of the shorter one. -/
def windowsOf (s : List Char) (w : Nat) : List (List Char) :=
  (natRange (s.length - w + 1)).map (fun i => (s.drop i).take w)

/-- Modelled from the spec: partial-ratio — the best edit-ratio obtained
by sliding the shorter string over the longer one; the empty-string guard
is from the source. -/
def slideSim (s t : String) : ℚ :=
  if s = "" ∨ t = "" then 0
  else
    let a := if s.length ≤ t.length then s else t
    let b := if s.length ≤ t.length then t else s
    (windowsOf b.toList a.length).foldl
      (fun best w => qMax best (levSim a (String.mk w))) 0

/-- Alphabetically sort the whitespace tokens of a string and rejoin. -/
def sortTokens (s : String) : String :=
  joinWith " " (sortStrs (pySplit s))

/-- Modelled from the spec: token-sort-ratio — edit-ratio after sorting
each string's tokens; the empty-string guard is from the source. -/
def tokenSortSim (s t : String) : ℚ :=
  if s = "" ∨ t = "" then 0
  else levSim (sortTokens s) (sortTokens t)

/-- Deduplicated, alphabetically sorted token list of a string. -/
def uniqueSorted (s : String) : List String :=
  sortStrs (pyDedup (pySplit s))

/-- Modelled from the spec: token-set-ratio — deduplicate tokens and
compare the intersection against the intersection plus each side's unique
remainder (the best of the three pairwise edit-ratios); the empty-string
guard is from the source. -/
def tokenSetSim (s t : String) : ℚ :=
  if s = "" ∨ t = "" then 0
  else
    let ts := uniqueSorted s
    let tt := uniqueSorted t
    let inter := ts.filter (fun w => tt.contains w)
    let d1 := ts.filter (fun w => ¬ tt.contains w)
    let d2 := tt.filter (fun w => ¬ ts.contains w)
    let s0 := joinWith " " inter
    let s1 := joinWith " " (inter ++ d1)
    let s2 := joinWith " " (inter ++ d2)
    qMax (levSim s0 s1) (qMax (levSim s0 s2) (levSim s1 s2))

/-- SimilarityCalculator.weighted_average: the 0.3/0.2/0.3/0.2 weighted
sum of the four metrics, returned with the per-metric breakdown. -/
def weightedAverage (s t : String) : ℚ × (ℚ × ℚ × ℚ × ℚ) :=
  let l := levSim s t
  let p := slideSim s t
  let ts := tokenSortSim s t
  let tse := tokenSetSim s t
  (qAdd (qAdd (qAdd (qMul l (Rat.divInt 3 10)) (qMul p (Rat.divInt 2 10)))
      (qMul ts (Rat.divInt 3 10))) (qMul tse (Rat.divInt 2 10)),
   (l, p, ts, tse))

/-! ## Matchers (matching/matchers.py) -/

/-- Result dictionary of `ExactMatcher.match`. -/
structure ExactResult where
  score : ℚ
  is_match : Bool
  exact_flag : Bool
  deriving Repr, DecidableEq

/-- ExactMatcher.match: case/whitespace-insensitive equality of the two
strings, score 100 or 0. -/
def exactMatch (query target : String) : ExactResult :=
  let im := pyStrip (pyLower query) = pyStrip (pyLower target)
  { score := if im then 100 else 0, is_match := im, exact_flag := im }

/-- Result dictionary of `FuzzyMatcher.match`. -/
structure FuzzyResult where
  score : ℚ
  match_level : String
  is_match : Bool
  breakdown : ℚ × ℚ × ℚ × ℚ
  deriving Repr, DecidableEq

/-- FuzzyMatcher.match: weighted-average similarity classified by the
HIGH/MEDIUM/LOW thresholds. -/
def fuzzyMatch (query target : String) : FuzzyResult :=
  let r := weightedAverage query target
  let lvl :=
    if qLe HIGH_RISK_THRESHOLD r.1 then "high"
    else if qLe MEDIUM_RISK_THRESHOLD r.1 then "medium"
    else if qLe LOW_RISK_THRESHOLD r.1 then "low"
    else "none"
  { score := r.1, match_level := lvl,
    is_match := qLe LOW_RISK_THRESHOLD r.1, breakdown := r.2 }

/-- Result dictionary of `TokenMatcher.match`; `match_frac` models the
`match_ratio` entry of the details dictionary, absent in the
empty-input branch. -/
structure TokenResult where
  score : ℚ
  is_match : Bool
  matched : List (String × String × ℚ)
  match_frac : Option ℚ
  deriving Repr, DecidableEq

/-- Best-scoring target token for one query token: the fold of the inner
loop of `TokenMatcher.match` (strict improvement keeps the first
maximum). -/
def bestTokenMatch (q : String) (ts : List String) : ℚ × Option String :=
  ts.foldl
    (fun st t =>
      let s := levSim q t
      if qLt st.1 s then (s, some t) else st)
    (0, none)

/-- TokenMatcher.match: sum the accepted best pairings over the query
tokens and divide by the query-token count. -/
def tokenMatch (qs ts : List String) : TokenResult :=
  if qs = [] ∨ ts = [] then
    { score := 0, is_match := false, matched := [], match_frac := none }
  else
    let st := qs.foldl
      (fun (st : List (String × String × ℚ) × ℚ) q =>
        let best := bestTokenMatch q ts
        if qLe LOW_RISK_THRESHOLD best.1 then
          (st.1 ++ [(q, best.2.getD "", best.1)], qAdd st.2 best.1)
        else st)
      ([], 0)
    let avg := if qs ≠ [] then qDiv st.2 (qOfNat qs.length) else 0
    { score := avg, is_match := qLe LOW_RISK_THRESHOLD avg,
      matched := st.1,
      match_frac := some (qDiv (qOfNat st.1.length) (qOfNat qs.length)) }

/-! ## Match records and scoring (matching/engine.py, matching/scorer.py) -/

/-- One match dictionary as assembled by `MatchingEngine._match_against_entry`
and annotated in place by the scorer; `risk_score`/`risk_level` are
`Option` because those keys are set only during scoring. -/
structure MatchRec where
  match_type : String
  score : ℚ
  is_match : Bool
  match_level : Option String
  details_exact : Option Bool
  details_breakdown : Option (ℚ × ℚ × ℚ × ℚ)
  details_matched : Option (List (String × String × ℚ))
  details_match_frac : Option ℚ
  target_name : String
  source : String
  list_type : String
  confidence : String
  risk_score : Option ℚ
  risk_level : Option String
  deriving Repr, DecidableEq

/-- MatchScorer.calculate_risk_score: priority-weighted, exact-boosted,
clamped at 100. -/
def calculateRiskScore (m : MatchRec) (listSource : String) : ℚ :=
  let base := m.score
  let lp := listPriorities listSource 50
  let pm := qDiv lp 100
  let pm := if m.match_type = "exact" then qMul pm (Rat.divInt 12 10) else pm
  qMin (qMul base pm) 100

/-- MatchScorer.determine_risk_level. -/
def determineRiskLevel (score : ℚ) : String :=
  if qLe HIGH_RISK_THRESHOLD score then "HIGH"
  else if qLe MEDIUM_RISK_THRESHOLD score then "MEDIUM"
  else if qLe LOW_RISK_THRESHOLD score then "LOW"
  else "NONE"

/-- MatchScorer.requires_review. -/
def requiresReview (score : ℚ) : Bool := qLe REQUIRE_MANUAL_REVIEW_ABOVE score

/-- MatchScorer.should_auto_clear. -/
def shouldAutoClear (score : ℚ) : Bool := qLt score AUTO_CLEAR_BELOW

/-- Sort key of `MatchScorer.rank_matches`; the source reads the priority
dictionary with default 0 here. -/
def rankKey (m : MatchRec) : ℚ × ℚ × ℚ :=
  (m.risk_score.getD 0, listPriorities m.source 0, m.score)

/-- Lexicographic greater-or-equal on sort-key triples (Python tuple
comparison). -/
def lexGe (x y : ℚ × ℚ × ℚ) : Bool :=
  qLt y.1 x.1 ||
    (x.1 = y.1 && (qLt y.2.1 x.2.1 ||
      (x.2.1 = y.2.1 && qLe y.2.2 x.2.2)))

/-- Stable descending insertion: a new element goes before the first
element whose key it ties or beats; elements it is inserted past have
strictly greater keys. -/
def insertRanked (key : MatchRec → ℚ × ℚ × ℚ) (m : MatchRec) :
    List MatchRec → List MatchRec
  | [] => [m]
  | x :: xs =>
    if lexGe (key m) (key x) then m :: x :: xs
    else x :: insertRanked key m xs

/-- Stable descending sort by a key (the semantics of Python
`sorted(..., key=..., reverse=True)`). -/
def sortRanked (key : MatchRec → ℚ × ℚ × ℚ) (l : List MatchRec) : List MatchRec :=
  l.foldr (insertRanked key) []

/-- MatchScorer.rank_matches. -/
def rankMatches (ms : List MatchRec) : List MatchRec := sortRanked rankKey ms

/-- Summary dictionary of `MatchScorer.create_match_summary`;
`highest_score` and `risk_breakdown` are keys absent in the empty case. -/
structure Summary where
  total_matches : Nat
  highest_risk : String
  highest_score : Option ℚ
  requires_review : Bool
  can_auto_clear : Bool
  risk_breakdown : Option (Nat × Nat × Nat)
  deriving Repr, DecidableEq

/-- MatchScorer.create_match_summary. -/
def createMatchSummary : List MatchRec → Summary
  | [] =>
    { total_matches := 0, highest_risk := "NONE", highest_score := none,
      requires_review := false, can_auto_clear := true, risk_breakdown := none }
  | m :: ms =>
    let highest := ms.foldl (fun acc x => qMax acc (x.risk_score.getD 0))
      (m.risk_score.getD 0)
    let all := m :: ms
    let cnt := fun lvl =>
      (all.filter (fun x => determineRiskLevel (x.risk_score.getD 0) = lvl)).length
    { total_matches := all.length
      highest_risk := determineRiskLevel highest
      highest_score := some highest
      requires_review := requiresReview highest
      can_auto_clear := shouldAutoClear highest
      risk_breakdown := some (cnt "HIGH", cnt "MEDIUM", cnt "LOW") }

/-! ## Matching orchestration (matching/engine.py) -/

/-- One sanctions dataframe row; every column access in the source goes
through `.get` with a default, so all fields are `Option`. -/
structure SanctionRow where
  name : Option String
  normalized : Option String
  tokens : Option (List String)
  source : Option String
  list_type : Option String
  deriving Repr, DecidableEq

/-- Row construction of `NameProcessor.process_dataframe`: the raw name
column is kept and the processed fields are merged in. -/
def ingestRow (nm src lt : String) : SanctionRow :=
  let p := processSingle nm
  { name := some nm, normalized := some p.normalized, tokens := some p.tokens,
    source := some src, list_type := some lt }

/-- The name `_match_against_entry` compares against:
`sanction_row.get('normalized', sanction_row.get('name', ''))`. -/
def rowLookupName (row : SanctionRow) : String :=
  match row.normalized with
  | some s => s
  | none => row.name.getD ""

/-- MatchingEngine._match_against_entry: exact first with short-circuit,
otherwise fuzzy and (when the row has tokens) token matching. -/
def matchAgainstEntry (qp : QueryProfile) (row : SanctionRow) : List MatchRec :=
  let sanctionName := rowLookupName row
  if sanctionName = "" then []
  else
    let ex := exactMatch qp.normalized sanctionName
    if ex.is_match then
      [{ match_type := "exact", score := ex.score, is_match := ex.is_match,
         match_level := none, details_exact := some ex.exact_flag,
         details_breakdown := none, details_matched := none,
         details_match_frac := none,
         target_name := row.name.getD "", source := row.source.getD "",
         list_type := row.list_type.getD "", confidence := "HIGH",
         risk_score := none, risk_level := none }]
    else
      let fz := fuzzyMatch qp.normalized sanctionName
      let fuzzyRecs :=
        if fz.is_match then
          [{ match_type := "fuzzy", score := fz.score, is_match := fz.is_match,
             match_level := some fz.match_level, details_exact := none,
             details_breakdown := some fz.breakdown, details_matched := none,
             details_match_frac := none,
             target_name := row.name.getD "", source := row.source.getD "",
             list_type := row.list_type.getD "",
             confidence := pyUpper fz.match_level,
             risk_score := none, risk_level := none }]
        else []
      let ts := row.tokens.getD []
      let tokenRecs :=
        if ts ≠ [] then
          let tk := tokenMatch qp.tokens ts
          if tk.is_match then
            [{ match_type := "token", score := tk.score, is_match := tk.is_match,
               match_level := none, details_exact := none,
               details_breakdown := none, details_matched := some tk.matched,
               details_match_frac := tk.match_frac,
               target_name := row.name.getD "", source := row.source.getD "",
               list_type := row.list_type.getD "", confidence := "MEDIUM",
               risk_score := none, risk_level := none }]
          else []
        else []
      fuzzyRecs ++ tokenRecs

/-- Result dictionary of `MatchingEngine.screen_name`; `processed_query`
is absent on the short-query early return. -/
structure ScreeningResult where
  query : String
  processed_query : Option QueryProfile
  matches_list : List MatchRec
  summary : Summary
  deriving Repr, DecidableEq

/-- Scoring annotation loop of `screen_name`: set `risk_score` and
`risk_level` on each match. -/
def scoreMatches (ms : List MatchRec) : List MatchRec :=
  ms.map (fun m =>
    let rs := calculateRiskScore m m.source
    { m with risk_score := some rs, risk_level := some (determineRiskLevel rs) })

/-- MatchingEngine.screen_name: short-query guard, per-row matching,
scoring, significance filter, ranking, summary. -/
def screenName (query : String) (rows : List SanctionRow) : ScreeningResult :=
  if query = "" ∨ (pyStrip query).length < MIN_NAME_LENGTH then
    { query := query, processed_query := none, matches_list := [],
      summary := createMatchSummary [] }
  else
    let qp := processSingle query
    let found := rows.flatMap (matchAgainstEntry qp)
    let scored := scoreMatches found
    let significant := scored.filter
      (fun m => qLe LOW_RISK_THRESHOLD (m.risk_score.getD 0))
    let ranked := rankMatches significant
    { query := query, processed_query := some qp, matches_list := ranked,
      summary := createMatchSummary ranked }

/-! ## False-positive filters (flagging/filters.py)

Removed matches are additionally tagged `filtered=True` in the source;
the tag is set on dictionaries that leave the active list and is never
read downstream, so only the removal is modelled. -/

/-- Business-word set of `_filter_common_words`. -/
def commonBusinessWords : List String :=
  ["company", "corporation", "limited", "ltd", "inc", "llc",
   "bank", "group", "international", "trading", "services",
   "foundation", "association", "organization", "society"]

/-- FalsePositiveFilter._filter_common_words: drop low-scoring matches
when both the query and the target contain a generic business word
(substring containment, as in Python `in`). -/
def filterCommonWords (ms : List MatchRec) (query : String) : List MatchRec :=
  let ql := pyLower query
  ms.filter (fun m =>
    let tn := pyLower m.target_name
    ¬ ((commonBusinessWords.any (fun w => strContains ql w)) = true ∧
       (commonBusinessWords.any (fun w => strContains tn w)) = true ∧
       qLt m.score 75 = true))

/-- FalsePositiveFilter._filter_short_names: a query of trimmed length at
most 3 discards the whole list; otherwise drop short target names with
score below 90. -/
def filterShortNames (ms : List MatchRec) (query : String) : List MatchRec :=
  if (pyStrip query).length ≤ 3 then []
  else
    ms.filter (fun m =>
      ¬ ((pyStrip m.target_name).length ≤ 3 ∧ qLt m.score 90 = true))

/-- Honorific set of `_filter_title_only_matches`. -/
def filterTitles : List String :=
  ["mr", "mrs", "ms", "dr", "prof", "sir", "lady", "lord"]

/-- FalsePositiveFilter._filter_title_only_matches: drop matches whose
query/target word overlap is more than half honorifics, at score below
80; word sets are modelled as deduplicated lists. -/
def filterTitleOnly (ms : List MatchRec) (query : String) : List MatchRec :=
  let queryWords := pyDedup (pySplit (pyLower query))
  ms.filter (fun m =>
    let targetWords := pyDedup (pySplit (pyLower m.target_name))
    let commonWords := queryWords.filter (fun w => targetWords.contains w)
    let titleWords := commonWords.filter (fun w => filterTitles.contains w)
    ¬ (titleWords.length > 0 ∧
       qLt (Rat.divInt 1 2)
         (qDiv (qOfNat titleWords.length) (qOfNat commonWords.length)) = true ∧
       qLt m.score 80 = true))

/-- FalsePositiveFilter._filter_weak_partial_matches: drop token matches
with score below 70 and a token-pairing share below 0.6. -/
def filterWeakMatches (ms : List MatchRec) (query : String) : List MatchRec :=
  ms.filter (fun m =>
    ¬ (m.match_type = "token" ∧ qLt m.score 70 = true ∧
       qLt (m.details_match_frac.getD 0) (Rat.divInt 6 10) = true))

/-- Geographic-term set of `_filter_geographic_false_positives`. -/
def geographicTerms : List String :=
  ["north", "south", "east", "west", "central", "new", "old",
   "city", "town", "village", "county", "state", "province",
   "republic", "kingdom", "emirates", "federation"]

/-- FalsePositiveFilter._filter_geographic_false_positives: drop
low-scoring matches when both sides contain at least one geographic term
(substring containment). -/
def filterGeographic (ms : List MatchRec) (query : String) : List MatchRec :=
  let ql := pyLower query
  ms.filter (fun m =>
    let tn := pyLower m.target_name
    let qGeo := (geographicTerms.filter (fun t => strContains ql t)).length
    let tGeo := (geographicTerms.filter (fun t => strContains tn t)).length
    ¬ (qGeo > 0 ∧ tGeo > 0 ∧ qLt m.score 75 = true))

/-- FalsePositiveFilter.apply_filters: the five filters in dictionary
insertion order. -/
def applyFilters (ms : List MatchRec) (query : String) : List MatchRec :=
  filterGeographic
    (filterWeakMatches
      (filterTitleOnly
        (filterShortNames
          (filterCommonWords ms query) query) query) query) query

/-! ## Decisions (flagging/decisions.py) -/

/-- Workflow routing sub-record. -/
structure Workflow where
  queue : String
  notification : Bool
  escalation_path : Option String
  deriving Repr, DecidableEq

/-- Decision dictionary; every key that some code path leaves unset is an
`Option` field (in particular `timestamp`, which two business rules omit).
The nested option in `match_details` distinguishes an absent key from a
key explicitly set to Python `None`. -/
structure Decision where
  action : String
  reason : String
  confidence : String
  priority : String
  timestamp : Option String
  assigned_to : Option String
  match_details : Option (Option MatchRec)
  filter_applied : Option String
  requires_approval : Option Bool
  sla_hours : Option ℚ
  workflow : Option Workflow
  deriving Repr, DecidableEq

/-- DecisionMaker._requires_approval: fixed action table, default True. -/
def requiresApprovalFor (action : String) : Bool :=
  if action = "AUTO_CLEAR" then false
  else if action = "MANUAL_REVIEW" then false
  else if action = "ESCALATE" then true
  else if action = "BLOCK" then true
  else true

/-- DecisionMaker._get_sla_hours: the action-by-priority matrix, with 24
as the default for unknown entries. -/
def getSlaHours (action priority : String) : ℚ :=
  if action = "AUTO_CLEAR" then
    if priority = "LOW" ∨ priority = "MEDIUM" ∨ priority = "HIGH" ∨
       priority = "CRITICAL" then 0 else 24
  else if action = "MANUAL_REVIEW" then
    if priority = "LOW" then 72 else if priority = "MEDIUM" then 24
    else if priority = "HIGH" then 8 else if priority = "CRITICAL" then 2
    else 24
  else if action = "ESCALATE" then
    if priority = "LOW" then 48 else if priority = "MEDIUM" then 12
    else if priority = "HIGH" then 4 else if priority = "CRITICAL" then 1
    else 24
  else if action = "BLOCK" then
    if priority = "LOW" then 24 else if priority = "MEDIUM" then 8
    else if priority = "HIGH" then 2 else if priority = "CRITICAL" then 0
    else 24
  else 24

/-- DecisionMaker.create_decision; the timestamp value is wall-clock time
in the source (`datetime.now().isoformat()`), modelled by a placeholder
string since only key presence is ever inspected. -/
def createDecision (action reason confidence priority : String)
    (assignedTo : Option String) (matchDetails : Option (Option MatchRec))
    (filterApplied : Option String) : Decision :=
  { action := action, reason := reason, confidence := confidence,
    priority := priority, timestamp := some "datetime.now",
    assigned_to := assignedTo, match_details := matchDetails,
    filter_applied := filterApplied,
    requires_approval := some (requiresApprovalFor action),
    sla_hours := some (getSlaHours action priority),
    workflow := none }

/-- Valid action strings (the `DecisionAction` enumeration). -/
def validActions : List String :=
  ["AUTO_CLEAR", "MANUAL_REVIEW", "ESCALATE", "BLOCK"]

/-- Valid priority strings (the `Priority` enumeration). -/
def validPriorities : List String :=
  ["LOW", "MEDIUM", "HIGH", "CRITICAL"]

/-- DecisionMaker.validate_decision: the required keys `action`, `reason`,
`confidence` and `priority` are always present in this embedding (every
constructor sets them), so the presence check reduces to `timestamp`;
action and priority must come from the enumerations. -/
def validateDecision (d : Decision) : Bool :=
  d.timestamp.isSome && validActions.contains d.action &&
    validPriorities.contains d.priority

/-- DecisionMaker.get_workflow_routing: fixed action table; an unknown
action falls back to the MANUAL_REVIEW routing (built with this
decision's priority). -/
def getWorkflowRouting (d : Decision) : Workflow :=
  let priority := d.priority
  let manualReview : Workflow :=
    { queue := "analyst_review", notification := true,
      escalation_path :=
        if priority = "HIGH" ∨ priority = "CRITICAL" then some "supervisor"
        else none }
  if d.action = "AUTO_CLEAR" then
    { queue := "auto_processed", notification := false, escalation_path := none }
  else if d.action = "MANUAL_REVIEW" then manualReview
  else if d.action = "ESCALATE" then
    { queue := "senior_analyst", notification := true,
      escalation_path := some "compliance_manager" }
  else if d.action = "BLOCK" then
    { queue := "immediate_action", notification := true,
      escalation_path := some "compliance_manager" }
  else manualReview

/-! ## Business rules (flagging/rules.py) -/

/-- BusinessRules._exact_ofac_block: the first surviving exact OFAC match
with raw score or risk score 100 blocks immediately. -/
def exactOfacBlock (ms : List MatchRec) : Option Decision :=
  match ms.find? (fun m =>
    m.source = "OFAC" ∧ m.match_type = "exact" ∧
      (m.score = 100 ∨ m.risk_score.getD 0 = 100)) with
  | some m => some
    { action := "BLOCK", reason := "Exact OFAC match: " ++ m.target_name,
      confidence := "HIGH", priority := "CRITICAL",
      timestamp := some "auto-generated", assigned_to := none,
      match_details := some (some m), filter_applied := none,
      requires_approval := none, sla_hours := none, workflow := none }
  | none => none

/-- Python `max(ms, key=risk_score)`: raises on an empty list, otherwise
keeps the first of equal maxima. -/
def pyMaxByRisk : List MatchRec → Except String MatchRec
  | [] => Except.error "max() arg is an empty sequence"
  | m :: ms => Except.ok (ms.foldl
      (fun best x =>
        if qLt (best.risk_score.getD 0) (x.risk_score.getD 0) then x else best) m)

/-- BusinessRules._high_risk_escalate: escalates when the summary's
highest score reaches 85; the `max` over the (possibly empty) surviving
match list can raise, hence `Except`. The source formats the score into
the reason string; the numeric formatting is elided. -/
def highRiskEscalate (ms : List MatchRec) (summary : Summary) :
    Except String (Option Decision) :=
  if qLe 85 (summary.highest_score.getD 0) then
    match pyMaxByRisk ms with
    | Except.error e => Except.error e
    | Except.ok best => Except.ok (some
      { action := "ESCALATE", reason := "High-risk match",
        confidence := "HIGH", priority := "HIGH",
        timestamp := some "auto-generated",
        assigned_to := some "senior_analyst",
        match_details := some (some best), filter_applied := none,
        requires_approval := none, sla_hours := none, workflow := none })
  else Except.ok none

/-- BusinessRules._medium_risk_review: review at `requires_review` below
85; note the produced dictionary has no timestamp key. -/
def mediumRiskReview (ms : List MatchRec) (summary : Summary) : Option Decision :=
  if summary.requires_review ∧ qLt (summary.highest_score.getD 0) 85 = true then
    some
      { action := "MANUAL_REVIEW", reason := "Medium-risk match requires review",
        confidence := "MEDIUM", priority := "MEDIUM",
        timestamp := none, assigned_to := some "analyst",
        match_details := some ms.head?, filter_applied := none,
        requires_approval := none, sla_hours := none, workflow := none }
  else none

/-- BusinessRules._low_risk_clear. -/
def lowRiskClear (summary : Summary) : Option Decision :=
  if summary.can_auto_clear then
    some
      { action := "AUTO_CLEAR", reason := "Low risk score, auto-cleared",
        confidence := "MEDIUM", priority := "LOW",
        timestamp := some "auto-generated", assigned_to := none,
        match_details := none, filter_applied := none,
        requires_approval := none, sla_hours := none, workflow := none }
  else none

/-- Common-name list of `_common_name_filter`. -/
def commonNames : List String :=
  ["john smith", "mary johnson", "david brown", "michael davis",
   "james wilson", "robert miller", "william moore", "richard taylor"]

/-- BusinessRules._common_name_filter: suppression of known common names
below score 80; note the produced dictionary has no timestamp key. -/
def commonNameRule (query : String) (summary : Summary) : Option Decision :=
  let q := pyStrip (pyLower query)
  if commonNames.contains q ∧ qLt (summary.highest_score.getD 0) 80 = true then
    some
      { action := "AUTO_CLEAR", reason := "Common name with low confidence match",
        confidence := "MEDIUM", priority := "LOW",
        timestamp := none, assigned_to := none,
        match_details := none, filter_applied := some "common_name",
        requires_approval := none, sla_hours := none, workflow := none }
  else none

/-- Default decision of `BusinessRules.apply_rules` when no rule fires. -/
def defaultDecision : Decision :=
  { action := "AUTO_CLEAR", reason := "No significant matches found",
    confidence := "HIGH", priority := "LOW",
    timestamp := some "auto-generated", assigned_to := none,
    match_details := none, filter_applied := none,
    requires_approval := none, sla_hours := none, workflow := none }

/-- BusinessRules.apply_rules: the ordered rule dictionary, first
non-null decision wins; returns the decision together with the applied
rule name. -/
def applyRules (query : String) (ms : List MatchRec) (summary : Summary) :
    Except String (Decision × String) :=
  match exactOfacBlock ms with
  | some d => Except.ok (d, "exact_ofac_block")
  | none =>
    match highRiskEscalate ms summary with
    | Except.error e => Except.error e
    | Except.ok (some d) => Except.ok (d, "high_risk_escalate")
    | Except.ok none =>
      match mediumRiskReview ms summary with
      | some d => Except.ok (d, "medium_risk_review")
      | none =>
        match lowRiskClear summary with
        | some d => Except.ok (d, "low_risk_clear")
        | none =>
          match commonNameRule query summary with
          | some d => Except.ok (d, "common_name_filter")
          | none => Except.ok (defaultDecision, "default")

/-! ## Flagging engine (flagging/engine.py) -/

/-- Output of `FlaggingEngine.process_screening_result` (the compliance
metadata block is audit plumbing built from a wall-clock UUID and is not
modelled). -/
structure FlaggedResult where
  query : String
  matches_list : List MatchRec
  summary : Summary
  filtered_count : Nat
  decision : Decision
  applied_rule : String
  deriving Repr, DecidableEq

instance instDecEqExcept {e a : Type} [DecidableEq e] [DecidableEq a] :
    DecidableEq (Except e a) := fun x y =>
  match x, y with
  | Except.error u, Except.error v =>
    if h : u = v then isTrue (by rw [h]) else isFalse (by simp [h])
  | Except.ok u, Except.ok v =>
    if h : u = v then isTrue (by rw [h]) else isFalse (by simp [h])
  | Except.error _, Except.ok _ => isFalse (by simp)
  | Except.ok _, Except.error _ => isFalse (by simp)

/-- FlaggingEngine.process_screening_result: filter, rule application on
the filtered matches but the incoming summary, validation with the
MANUAL_REVIEW fallback, and workflow enrichment on the validated path. -/
def processScreeningResult (sr : ScreeningResult) : Except String FlaggedResult :=
  let original := sr.matches_list
  let filtered := applyFilters original sr.query
  let filteredCount := original.length - filtered.length
  match applyRules sr.query filtered sr.summary with
  | Except.error e => Except.error e
  | Except.ok (decision, ruleName) =>
    let finalDecision :=
      if validateDecision decision then
        { decision with workflow := some (getWorkflowRouting decision) }
      else
        createDecision "MANUAL_REVIEW"
          "Decision validation failed, routing for manual review"
          "MEDIUM" "MEDIUM" none none none
    Except.ok
      { query := sr.query, matches_list := filtered, summary := sr.summary,
        filtered_count := filteredCount, decision := finalDecision,
        applied_rule := ruleName }

/-- End-to-end pipeline as composed by the callers (demo, CLI and API all
run `process_screening_result(screen_name(query, df))`). -/
def screenAndFlag (query : String) (rows : List SanctionRow) :
    Except String FlaggedResult :=
  processScreeningResult (screenName query rows)

set_option maxRecDepth 1000000

/-! ## Claim theorems -/

/-- C2: the claim says processing never raises and degrades to a
conservative decision; the code violates it.  Screening the query "Ali"
(trimmed length exactly 3, so it passes the MIN_NAME_LENGTH guard)
against a single OFAC candidate named "Ali" produces an exact match with
risk score 100; the short-name filter then discards the entire match
list, and `_high_risk_escalate` evaluates `max([])` because the summary
still reports highest score 100 — an unhandled `ValueError` instead of a
Decision. -/
theorem high_risk_escalate_raises_on_filtered_out :
    screenAndFlag "Ali" [ingestRow "Ali" "OFAC" "SDN"] =
      Except.error "max() arg is an empty sequence" := by
  decide

/-- C3: the claim says the common-name suppression decision survives
validation and reaches the caller as AUTO_CLEAR with
filter_applied="common_name"; the code violates it.  For the query
"John Smith" against the EU candidate "John Smyth" the first four rules
pass and `_common_name_filter` fires (summary highest score 63 < 80),
but its decision dictionary has no `timestamp` key, so
`validate_decision` rejects it and the fallback MANUAL_REVIEW decision
replaces it. -/
theorem common_name_decision_replaced_by_fallback :
    (screenAndFlag "John Smith" [ingestRow "John Smyth" "EU" "SDN"]).map
      (fun r => (r.applied_rule, r.decision.action, r.decision.reason,
        r.decision.filter_applied, r.summary.highest_score)) =
    Except.ok ("common_name_filter", "MANUAL_REVIEW",
      "Decision validation failed, routing for manual review", none,
      some 63) ∧
    commonNameRule "John Smith"
      (screenName "John Smith" [ingestRow "John Smyth" "EU" "SDN"]).summary =
    some
      { action := "AUTO_CLEAR", reason := "Common name with low confidence match",
        confidence := "MEDIUM", priority := "LOW",
        timestamp := none, assigned_to := none,
        match_details := none, filter_applied := some "common_name",
        requires_approval := none, sla_hours := none, workflow := none } := by
  constructor
  · decide
  · decide

/-- C1 counterexample: screening "North Abcde Zzzzz" against the OFAC
candidate "North Abcde Qwert" yields a fuzzy and a token match (risk
scores 1200/17 ≈ 70.6 and 200/3 ≈ 66.7), both then removed by the
geographic filter; the summary carried into the rules still counts them
(total 2, highest 1200/17), so the low-risk-clear rule cannot fire and
the default rule decides instead — the summary the decision rules read
is the pre-filter aggregate, not an aggregate over the surviving
(empty) match list. -/
theorem summary_read_by_rules_is_not_postfilter_cex :
    (screenAndFlag "North Abcde Zzzzz"
        [ingestRow "North Abcde Qwert" "OFAC" "SDN"]).map
      (fun r => (r.matches_list, r.filtered_count, r.summary.total_matches,
        r.summary.highest_score)) =
    Except.ok ([], 2, 2, some (Rat.divInt 1200 17)) ∧
    (screenAndFlag "North Abcde Zzzzz"
        [ingestRow "North Abcde Qwert" "OFAC" "SDN"]).map
      (fun r => (r.summary.highest_risk, r.applied_rule,
        r.decision.confidence, r.decision.reason)) =
    Except.ok ("MEDIUM", "default", "HIGH", "No significant matches found") ∧
    (createMatchSummary []).total_matches = 0 ∧
    (createMatchSummary []).highest_score = none ∧
    (applyRules "North Abcde Zzzzz" [] (createMatchSummary [])).map
      (fun p => (p.2, p.1.confidence, p.1.reason)) =
    Except.ok ("low_risk_clear", "MEDIUM", "Low risk score, auto-cleared") := by
  refine ⟨?_, ?_, ?_, ?_, ?_⟩
  · decide
  · decide
  · decide
  · decide
  · decide

/-- C4 counterexample: for the query "Abba" against an exact OFAC
candidate, the BLOCK decision returned by the pipeline carries no
`requires_approval` and no `sla_hours` key at all (only the fallback
path sets them), although the fixed tables would give `true` and 0 —
so the returned Decision is not enriched as the claim states. -/
theorem block_decision_missing_enrichment_cex :
    (screenAndFlag "Abba" [ingestRow "Abba" "OFAC" "SDN"]).map
      (fun r => (r.decision.action, r.decision.priority,
        r.decision.requires_approval, r.decision.sla_hours)) =
    Except.ok ("BLOCK", "CRITICAL", none, none) ∧
    (screenAndFlag "Abba" [ingestRow "Abba" "OFAC" "SDN"]).map
      (fun r => r.decision.workflow) =
    Except.ok (some
      { queue := "immediate_action", notification := true,
        escalation_path := some "compliance_manager" }) ∧
    requiresApprovalFor "BLOCK" = true ∧
    getSlaHours "BLOCK" "CRITICAL" = 0 := by
  refine ⟨?_, ?_, ?_, ?_⟩
  · decide
  · decide
  · decide
  · decide

/-! ### Structural lemmas about the flagging engine -/

theorem applyFilters_nil (q : String) : applyFilters [] q = [] := by
  simp [applyFilters, filterCommonWords, filterShortNames, filterTitleOnly,
    filterWeakMatches, filterGeographic]

/-- Inversion of a successful flagging run: the rules were applied to the
filtered match list together with the unchanged incoming summary, and the
output record keeps that summary. -/
theorem processScreeningResult_ok_inv (sr : ScreeningResult) (r : FlaggedResult)
    (h : processScreeningResult sr = Except.ok r) :
    ∃ d rn,
      applyRules sr.query (applyFilters sr.matches_list sr.query) sr.summary =
        Except.ok (d, rn) ∧
      r = { query := sr.query,
            matches_list := applyFilters sr.matches_list sr.query,
            summary := sr.summary,
            filtered_count :=
              sr.matches_list.length -
                (applyFilters sr.matches_list sr.query).length,
            decision :=
              if validateDecision d then
                { d with workflow := some (getWorkflowRouting d) }
              else
                createDecision "MANUAL_REVIEW"
                  "Decision validation failed, routing for manual review"
                  "MEDIUM" "MEDIUM" none none none,
            applied_rule := rn } := by
  unfold processScreeningResult at h
  dsimp only at h
  rcases happ : applyRules sr.query (applyFilters sr.matches_list sr.query)
      sr.summary with e | ⟨d, rn⟩
  · rw [happ] at h
    exact absurd h (by simp)
  · rw [happ] at h
    dsimp only at h
    refine ⟨d, rn, rfl, ?_⟩
    exact ((Except.ok.injEq _ _).mp h).symm

/-- C1 amended: the summary the decision rules read, and the one carried
on the flagged result, is the incoming (pre-filter) summary produced by
the matching engine; only the match list itself is replaced by the
filtered list. -/
theorem flagging_summary_is_prefilter (sr : ScreeningResult) (r : FlaggedResult)
    (h : processScreeningResult sr = Except.ok r) :
    r.summary = sr.summary ∧
    r.matches_list = applyFilters sr.matches_list sr.query ∧
    r.filtered_count = sr.matches_list.length - r.matches_list.length := by
  obtain ⟨d, rn, _, hr⟩ := processScreeningResult_ok_inv sr r h
  subst hr
  exact ⟨rfl, rfl, rfl⟩

/-- Concrete flagged result of a short-query screening call. -/
def flaggedShortQuery : FlaggedResult :=
  { query := "Jo", matches_list := [], summary := createMatchSummary [],
    filtered_count := 0,
    decision :=
      { action := "AUTO_CLEAR", reason := "Low risk score, auto-cleared",
        confidence := "MEDIUM", priority := "LOW",
        timestamp := some "auto-generated", assigned_to := none,
        match_details := none, filter_applied := none,
        requires_approval := none, sla_hours := none,
        workflow := some
          { queue := "auto_processed", notification := false,
            escalation_path := none } },
    applied_rule := "low_risk_clear" }

theorem flagging_summary_is_prefilter_witness :
    flaggedShortQuery.summary = (screenName "Jo" []).summary ∧
    flaggedShortQuery.matches_list =
      applyFilters (screenName "Jo" []).matches_list (screenName "Jo" []).query ∧
    flaggedShortQuery.filtered_count =
      (screenName "Jo" []).matches_list.length -
        flaggedShortQuery.matches_list.length :=
  flagging_summary_is_prefilter (screenName "Jo" []) flaggedShortQuery (by decide)

theorem exactOfacBlock_unenriched (ms : List MatchRec) (d : Decision)
    (h : exactOfacBlock ms = some d) :
    d.requires_approval = none ∧ d.sla_hours = none ∧ d.workflow = none := by
  unfold exactOfacBlock at h
  split at h
  · injection h with h
    subst h
    exact ⟨rfl, rfl, rfl⟩
  · exact absurd h (by simp)

theorem highRiskEscalate_unenriched (ms : List MatchRec) (s : Summary)
    (d : Decision) (h : highRiskEscalate ms s = Except.ok (some d)) :
    d.requires_approval = none ∧ d.sla_hours = none ∧ d.workflow = none := by
  unfold highRiskEscalate at h
  split at h
  · rcases hmax : pyMaxByRisk ms with e | best
    · rw [hmax] at h
      exact absurd h (by simp)
    · rw [hmax] at h
      injection h with h
      injection h with h
      subst h
      exact ⟨rfl, rfl, rfl⟩
  · injection h with h
    exact absurd h (by simp)

theorem mediumRiskReview_unenriched (ms : List MatchRec) (s : Summary)
    (d : Decision) (h : mediumRiskReview ms s = some d) :
    d.requires_approval = none ∧ d.sla_hours = none ∧ d.workflow = none := by
  unfold mediumRiskReview at h
  split at h
  · injection h with h
    subst h
    exact ⟨rfl, rfl, rfl⟩
  · exact absurd h (by simp)

theorem lowRiskClear_unenriched (s : Summary) (d : Decision)
    (h : lowRiskClear s = some d) :
    d.requires_approval = none ∧ d.sla_hours = none ∧ d.workflow = none := by
  unfold lowRiskClear at h
  split at h
  · injection h with h
    subst h
    exact ⟨rfl, rfl, rfl⟩
  · exact absurd h (by simp)

theorem commonNameRule_unenriched (q : String) (s : Summary) (d : Decision)
    (h : commonNameRule q s = some d) :
    d.requires_approval = none ∧ d.sla_hours = none ∧ d.workflow = none := by
  unfold commonNameRule at h
  dsimp only at h
  split at h
  · injection h with h
    subst h
    exact ⟨rfl, rfl, rfl⟩
  · exact absurd h (by simp)

/-- Every decision produced by the business rules (including the default)
leaves `requires_approval`, `sla_hours` and `workflow` unset; they are
filled only by `create_decision` on the fallback path. -/
theorem applyRules_decision_unenriched (q : String) (ms : List MatchRec)
    (s : Summary) (d : Decision) (rn : String)
    (h : applyRules q ms s = Except.ok (d, rn)) :
    d.requires_approval = none ∧ d.sla_hours = none ∧ d.workflow = none := by
  unfold applyRules at h
  rcases h1 : exactOfacBlock ms with _ | d1
  · rw [h1] at h
    rcases h2 : highRiskEscalate ms s with e | od
    · rw [h2] at h
      exact absurd h (by simp)
    · rw [h2] at h
      rcases od with _ | d2
      · dsimp only at h
        rcases h3 : mediumRiskReview ms s with _ | d3
        · rw [h3] at h
          rcases h4 : lowRiskClear s with _ | d4
          · rw [h4] at h
            rcases h5 : commonNameRule q s with _ | d5
            · rw [h5] at h
              injection h with h
              rw [show d = defaultDecision from congrArg Prod.fst h.symm]
              exact ⟨rfl, rfl, rfl⟩
            · rw [h5] at h
              injection h with h
              rw [show d = d5 from congrArg Prod.fst h.symm]
              exact commonNameRule_unenriched q s d5 h5
          · rw [h4] at h
            injection h with h
            rw [show d = d4 from congrArg Prod.fst h.symm]
            exact lowRiskClear_unenriched s d4 h4
        · rw [h3] at h
          injection h with h
          rw [show d = d3 from congrArg Prod.fst h.symm]
          exact mediumRiskReview_unenriched ms s d3 h3
      · dsimp only at h
        injection h with h
        rw [show d = d2 from congrArg Prod.fst h.symm]
        exact highRiskEscalate_unenriched ms s d2 h2
  · rw [h1] at h
    injection h with h
    rw [show d = d1 from congrArg Prod.fst h.symm]
    exact exactOfacBlock_unenriched ms d1 h1

/-- C4 amended: after a rule fires, the only enrichment performed on the
validated path is attaching the workflow record; `requires_approval` and
`sla_hours` stay absent.  Only the validation-fallback decision (built by
`create_decision`) carries `requires_approval` (false) and `sla_hours`
(24), and that one gets no workflow record. -/
theorem decision_enrichment_amended (sr : ScreeningResult) (r : FlaggedResult)
    (h : processScreeningResult sr = Except.ok r) :
    (r.decision.requires_approval = none ∧ r.decision.sla_hours = none ∧
      r.decision.workflow = some (getWorkflowRouting r.decision)) ∨
    (r.decision.action = "MANUAL_REVIEW" ∧
      r.decision.reason =
        "Decision validation failed, routing for manual review" ∧
      r.decision.requires_approval = some false ∧
      r.decision.sla_hours = some 24 ∧ r.decision.workflow = none) := by
  obtain ⟨d, rn, happ, hr⟩ := processScreeningResult_ok_inv sr r h
  obtain ⟨hra, hsla, _⟩ := applyRules_decision_unenriched _ _ _ _ _ happ
  subst hr
  by_cases hv : validateDecision d = true
  · left
    simp only [hv, if_pos]
    exact ⟨hra, hsla, rfl⟩
  · right
    rw [if_neg hv]
    exact ⟨rfl, rfl, rfl, rfl, rfl⟩

/-- Concrete flagged result of the exact-OFAC "Abba" screening call, used
to witness the amended enrichment theorem. -/
def abbaExactRec : MatchRec :=
  { match_type := "exact", score := 100, is_match := true,
    match_level := none, details_exact := some true,
    details_breakdown := none, details_matched := none,
    details_match_frac := none, target_name := "Abba", source := "OFAC",
    list_type := "SDN", confidence := "HIGH",
    risk_score := some 100, risk_level := some "HIGH" }

/-- Flagged result of screening "Abba" against the exact OFAC candidate. -/
def flaggedAbba : FlaggedResult :=
  { query := "Abba", matches_list := [abbaExactRec],
    summary :=
      { total_matches := 1, highest_risk := "HIGH", highest_score := some 100,
        requires_review := true, can_auto_clear := false,
        risk_breakdown := some (1, 0, 0) },
    filtered_count := 0,
    decision :=
      { action := "BLOCK", reason := "Exact OFAC match: Abba",
        confidence := "HIGH", priority := "CRITICAL",
        timestamp := some "auto-generated", assigned_to := none,
        match_details := some (some abbaExactRec), filter_applied := none,
        requires_approval := none, sla_hours := none,
        workflow := some
          { queue := "immediate_action", notification := true,
            escalation_path := some "compliance_manager" } },
    applied_rule := "exact_ofac_block" }

theorem decision_enrichment_amended_witness :
    (flaggedAbba.decision.requires_approval = none ∧
      flaggedAbba.decision.sla_hours = none ∧
      flaggedAbba.decision.workflow =
        some (getWorkflowRouting flaggedAbba.decision)) ∨
    (flaggedAbba.decision.action = "MANUAL_REVIEW" ∧
      flaggedAbba.decision.reason =
        "Decision validation failed, routing for manual review" ∧
      flaggedAbba.decision.requires_approval = some false ∧
      flaggedAbba.decision.sla_hours = some 24 ∧
      flaggedAbba.decision.workflow = none) :=
  decision_enrichment_amended (screenName "Abba" [ingestRow "Abba" "OFAC" "SDN"])
    flaggedAbba (by decide)

/-- The decision produced for an empty match list with the empty-summary
input: the low-risk-clear rule fires and passes validation, so it is
enriched with the auto-clear workflow routing. -/
def clearedDecision : Decision :=
  { action := "AUTO_CLEAR", reason := "Low risk score, auto-cleared",
    confidence := "MEDIUM", priority := "LOW",
    timestamp := some "auto-generated", assigned_to := none,
    match_details := none, filter_applied := none,
    requires_approval := none, sla_hours := none,
    workflow := some
      { queue := "auto_processed", notification := false,
        escalation_path := none } }

/-- Flagging an empty-match screening result with the empty summary
always auto-clears through the low-risk rule, whatever the query. -/
theorem process_empty_matches (q : String) (pq : Option QueryProfile) :
    processScreeningResult
        { query := q, processed_query := pq, matches_list := [],
          summary := createMatchSummary [] } =
      Except.ok
        { query := q, matches_list := [], summary := createMatchSummary [],
          filtered_count := 0, decision := clearedDecision,
          applied_rule := "low_risk_clear" } := by
  unfold processScreeningResult
  dsimp only
  rw [applyFilters_nil]
  rfl

/-- C6: a query of trimmed length below MIN_NAME_LENGTH (including the
empty string) short-circuits screening to an empty result — risk NONE,
`can_auto_clear`, decision AUTO_CLEAR — regardless of the candidates; and
screening any query against an empty candidate collection yields the same
empty result and AUTO_CLEAR decision, without any error. -/
theorem short_query_and_empty_candidates_clear (q : String)
    (rows : List SanctionRow) :
    ((pyStrip q).length < MIN_NAME_LENGTH →
      screenName q rows =
        { query := q, processed_query := none, matches_list := [],
          summary := createMatchSummary [] } ∧
      screenAndFlag q rows =
        Except.ok
          { query := q, matches_list := [], summary := createMatchSummary [],
            filtered_count := 0, decision := clearedDecision,
            applied_rule := "low_risk_clear" }) ∧
    ((screenName q []).matches_list = [] ∧
      (screenName q []).summary = createMatchSummary [] ∧
      screenAndFlag q [] =
        Except.ok
          { query := q, matches_list := [], summary := createMatchSummary [],
            filtered_count := 0, decision := clearedDecision,
            applied_rule := "low_risk_clear" }) ∧
    (createMatchSummary []).highest_risk = "NONE" ∧
    (createMatchSummary []).total_matches = 0 ∧
    (createMatchSummary []).can_auto_clear = true ∧
    clearedDecision.action = "AUTO_CLEAR" := by
  have hempty : ∀ ql : String,
      screenName ql [] =
        { query := ql,
          processed_query :=
            if ql = "" ∨ (pyStrip ql).length < MIN_NAME_LENGTH then none
            else some (processSingle ql),
          matches_list := [], summary := createMatchSummary [] } := by
    intro ql
    unfold screenName
    by_cases hc : ql = "" ∨ (pyStrip ql).length < MIN_NAME_LENGTH
    · rw [if_pos hc, if_pos hc]
    · rw [if_neg hc, if_neg hc]
      rfl
  refine ⟨?_, ?_, rfl, rfl, rfl, rfl⟩
  · intro hshort
    have hcond : q = "" ∨ (pyStrip q).length < MIN_NAME_LENGTH := Or.inr hshort
    have hsn : screenName q rows =
        { query := q, processed_query := none, matches_list := [],
          summary := createMatchSummary [] } := by
      unfold screenName
      rw [if_pos hcond]
    refine ⟨hsn, ?_⟩
    unfold screenAndFlag
    rw [hsn]
    exact process_empty_matches q none
  · rw [hempty q]
    refine ⟨rfl, rfl, ?_⟩
    unfold screenAndFlag
    rw [hempty q]
    exact process_empty_matches q _

theorem short_query_and_empty_candidates_clear_witness :
    screenAndFlag "Jo" [ingestRow "Abba" "OFAC" "SDN"] =
      Except.ok
        { query := "Jo", matches_list := [], summary := createMatchSummary [],
          filtered_count := 0, decision := clearedDecision,
          applied_rule := "low_risk_clear" } :=
  (((short_query_and_empty_candidates_clear "Jo"
    [ingestRow "Abba" "OFAC" "SDN"]).1) (by decide)).2

/-- C5: the risk score equals
`min(100, raw_score × (list_priority(source)/100) × (1.2 if exact else 1))`
with the fixed priority table (OFAC 100, UN 90, HMT 80, EU 70, unknown
50); the result lies in [0,100] for raw scores in [0,100]; the risk level
thresholds the score at 85/70/60; and the pipeline always derives
`risk_level` from the freshly computed `risk_score`. -/
theorem risk_score_formula (m : MatchRec) (src : String)
    (h0 : 0 ≤ m.score) (h1 : m.score ≤ 100) :
    calculateRiskScore m src =
      min 100 (m.score * (listPriorities src 50 / 100) *
        (if m.match_type = "exact" then (12/10 : ℚ) else 1)) ∧
    listPriorities "OFAC" 50 = 100 ∧ listPriorities "UN" 50 = 90 ∧
    listPriorities "HMT" 50 = 80 ∧ listPriorities "EU" 50 = 70 ∧
    (∀ s : String, s ∉ (["OFAC", "UN", "HMT", "EU"] : List String) →
      listPriorities s 50 = 50) ∧
    0 ≤ calculateRiskScore m src ∧ calculateRiskScore m src ≤ 100 ∧
    (∀ x : ℚ, determineRiskLevel x =
      if 85 ≤ x then "HIGH" else if 70 ≤ x then "MEDIUM"
      else if 60 ≤ x then "LOW" else "NONE") ∧
    (∀ ms : List MatchRec, ∀ mm ∈ scoreMatches ms,
      ∃ rs, mm.risk_score = some rs ∧
        mm.risk_level = some (determineRiskLevel rs)) := by
  have hb : Rat.divInt 12 10 = (12/10 : ℚ) := by
    rw [Rat.divInt_eq_div]
    norm_num
  have hlp : (0 : ℚ) ≤ listPriorities src 50 := by
    unfold listPriorities
    split_ifs <;> norm_num
  refine ⟨?_, by decide, by decide, by decide, by decide, ?_, ?_, ?_, ?_, ?_⟩
  · unfold calculateRiskScore
    dsimp only
    simp only [qMin_eq, qMul_eq, qDiv_eq, hb]
    rw [min_comm]
    congr 1
    split_ifs
    · ring
    · ring
  · intro s hs
    have e1 : s ≠ "OFAC" := fun hEq => hs (by simp [hEq])
    have e2 : s ≠ "UN" := fun hEq => hs (by simp [hEq])
    have e3 : s ≠ "HMT" := fun hEq => hs (by simp [hEq])
    have e4 : s ≠ "EU" := fun hEq => hs (by simp [hEq])
    simp [listPriorities, e1, e2, e3, e4]
  · unfold calculateRiskScore
    dsimp only
    simp only [qMin_eq, qMul_eq, qDiv_eq]
    refine le_min ?_ (by norm_num)
    refine mul_nonneg h0 ?_
    split_ifs
    · exact mul_nonneg (div_nonneg hlp (by norm_num)) (by norm_num [hb])
    · exact div_nonneg hlp (by norm_num)
  · unfold calculateRiskScore
    dsimp only
    simp only [qMin_eq, qMul_eq, qDiv_eq]
    exact min_le_right _ _
  · intro x
    simp only [determineRiskLevel, HIGH_RISK_THRESHOLD, MEDIUM_RISK_THRESHOLD,
      LOW_RISK_THRESHOLD, qLe_iff]
  · intro ms mm hmm
    obtain ⟨a, _, rfl⟩ := List.mem_map.mp hmm
    exact ⟨calculateRiskScore a a.source, rfl, rfl⟩

/-- Concrete fuzzy match on the UN list used to witness the risk-score
formula. -/
def unFuzzyRec : MatchRec :=
  { match_type := "fuzzy", score := 90, is_match := true,
    match_level := some "high", details_exact := none,
    details_breakdown := none, details_matched := none,
    details_match_frac := none, target_name := "Sample Name",
    source := "UN", list_type := "SDN", confidence := "HIGH",
    risk_score := none, risk_level := none }

theorem risk_score_formula_witness :
    (0 : ℚ) ≤ unFuzzyRec.score ∧ unFuzzyRec.score ≤ 100 ∧
    calculateRiskScore unFuzzyRec "UN" =
      min 100 (unFuzzyRec.score * (listPriorities "UN" 50 / 100) *
        (if unFuzzyRec.match_type = "exact" then (12/10 : ℚ) else 1)) :=
  ⟨by norm_num [unFuzzyRec], by norm_num [unFuzzyRec],
    (risk_score_formula unFuzzyRec "UN" (by norm_num [unFuzzyRec])
      (by norm_num [unFuzzyRec])).1⟩

/-- The inner loop of the token matcher computes the maximum edit-ratio
of the query token against the target tokens. -/
theorem bestTokenMatch_fst (q : String) (ts : List String) :
    (bestTokenMatch q ts).1 =
      ts.foldl (fun acc t => max acc (levSim q t)) 0 := by
  unfold bestTokenMatch
  suffices h : ∀ (l : List String) (b : ℚ) (o : Option String),
      ((l.foldl (fun st t =>
          let s := levSim q t
          if qLt st.1 s then (s, some t) else st) ((b, o) : ℚ × Option String)).1) =
        l.foldl (fun acc t => max acc (levSim q t)) b by
    exact h ts 0 none
  intro l
  induction l with
  | nil => intro b o; rfl
  | cons t l ih =>
    intro b o
    dsimp only [List.foldl]
    by_cases hlt : b < levSim q t
    · rw [if_pos ((qLt_iff _ _).mpr hlt), ih, max_eq_right (le_of_lt hlt)]
    · rw [if_neg (fun hc => hlt ((qLt_iff _ _).mp hc)), ih,
        max_eq_left (not_lt.mp hlt)]

/-- C7: the token matcher returns the zero non-matching result whenever
either token list is empty; otherwise its score is the sum over query
tokens of the best edit-ratio against any target token when that best
reaches the LOW threshold (otherwise 0), divided by the query-token
count; its match share is the accepted-pairing count over the query-token
count; and `is_match` holds exactly when the score reaches the LOW
threshold. -/
theorem token_match_spec (qs ts : List String) :
    ((qs = [] ∨ ts = []) →
      tokenMatch qs ts =
        { score := 0, is_match := false, matched := [], match_frac := none }) ∧
    (qs ≠ [] → ts ≠ [] →
      (tokenMatch qs ts).score =
        (qs.map (fun q =>
          if LOW_RISK_THRESHOLD ≤ (bestTokenMatch q ts).1
          then (bestTokenMatch q ts).1 else 0)).sum / (qs.length : ℚ) ∧
      (tokenMatch qs ts).match_frac =
        some (((qs.filter (fun q =>
          decide (LOW_RISK_THRESHOLD ≤ (bestTokenMatch q ts).1))).length : ℚ) /
          (qs.length : ℚ)) ∧
      ((tokenMatch qs ts).is_match = true ↔
        LOW_RISK_THRESHOLD ≤ (tokenMatch qs ts).score)) ∧
    (∀ q, (bestTokenMatch q ts).1 =
      ts.foldl (fun acc t => max acc (levSim q t)) 0) := by
  have hfold : ∀ (l : List String) (acc : List (String × String × ℚ)) (tot : ℚ),
      ((l.foldl (fun st q =>
          let best := bestTokenMatch q ts
          if qLe LOW_RISK_THRESHOLD best.1 then
            (st.1 ++ [(q, best.2.getD "", best.1)], qAdd st.2 best.1)
          else st) ((acc, tot) : List (String × String × ℚ) × ℚ)).2 =
        tot + (l.map (fun q =>
          if LOW_RISK_THRESHOLD ≤ (bestTokenMatch q ts).1
          then (bestTokenMatch q ts).1 else 0)).sum) ∧
      ((l.foldl (fun st q =>
          let best := bestTokenMatch q ts
          if qLe LOW_RISK_THRESHOLD best.1 then
            (st.1 ++ [(q, best.2.getD "", best.1)], qAdd st.2 best.1)
          else st) ((acc, tot) : List (String × String × ℚ) × ℚ)).1.length =
        acc.length + (l.filter (fun q =>
          decide (LOW_RISK_THRESHOLD ≤ (bestTokenMatch q ts).1))).length) := by
    intro l
    induction l with
    | nil => intro acc tot; exact ⟨by simp, by simp⟩
    | cons q l ih =>
      intro acc tot
      dsimp only [List.foldl]
      by_cases hacc : LOW_RISK_THRESHOLD ≤ (bestTokenMatch q ts).1
      · rw [if_pos ((qLe_iff _ _).mpr hacc)]
        constructor
        · rw [(ih _ _).1, qAdd_eq, List.map_cons, List.sum_cons, if_pos hacc]
          ring
        · rw [(ih _ _).2, List.filter_cons_of_pos (by simp [hacc])]
          simp only [List.length_append, List.length_cons, List.length_nil]
          omega
      · rw [if_neg (fun hc => hacc ((qLe_iff _ _).mp hc))]
        constructor
        · rw [(ih _ _).1, List.map_cons, List.sum_cons, if_neg hacc]
          simp
        · rw [(ih _ _).2, List.filter_cons_of_neg (by simp [hacc])]
  refine ⟨?_, ?_, fun q => bestTokenMatch_fst q ts⟩
  · intro h
    unfold tokenMatch
    rw [if_pos h]
  · intro hq ht
    unfold tokenMatch
    rw [if_neg (by simp [hq, ht])]
    dsimp only
    rw [if_pos hq]
    obtain ⟨hsum, hlen⟩ := hfold qs [] 0
    refine ⟨?_, ?_, ?_⟩
    · rw [hsum, qDiv_eq, qOfNat_eq, zero_add]
    · rw [hlen, qDiv_eq, qOfNat_eq, qOfNat_eq]
      simp
    · rw [hsum, zero_add]
      exact qLe_iff _ _

theorem token_match_spec_witness :
    (tokenMatch ["john", "smith"] ["john", "smyth"]).score =
      ((["john", "smith"].map (fun q =>
        if LOW_RISK_THRESHOLD ≤ (bestTokenMatch q ["john", "smyth"]).1
        then (bestTokenMatch q ["john", "smyth"]).1 else 0)).sum) /
        ((["john", "smith"] : List String).length : ℚ) :=
  (((token_match_spec ["john", "smith"] ["john", "smyth"]).2.1
    (by decide) (by decide))).1

/-- C8 counterexample: a candidate row whose name (and hence normalized
form) is empty is skipped before exact matching, so for the query "Mr."
(length 3, which passes the short-query guard, and whose normalized form
is empty after the honorific is dropped) the candidate's looked-up name
equals the query's normalized form case/whitespace-insensitively, yet no
exact match record is emitted. -/
theorem exact_equal_but_empty_name_cex :
    pyStrip (pyLower (rowLookupName (ingestRow "" "OFAC" "SDN"))) =
      pyStrip (pyLower (processSingle "Mr.").normalized) ∧
    matchAgainstEntry (processSingle "Mr.") (ingestRow "" "OFAC" "SDN") = [] := by
  constructor
  · decide
  · decide

/-- C8 amended: for every candidate whose looked-up comparison name (the
normalized field, falling back to the display name) is non-empty and
case/whitespace-insensitively equal to the query's normalized form, the
orchestrator emits exactly the one exact record with score 100 and
nothing else; for every candidate whose looked-up name differs from the
query's normalized form, it emits no exact record and at most one fuzzy
and one token record. -/
theorem match_against_entry_amended (qp : QueryProfile) (row : SanctionRow) :
    (rowLookupName row ≠ "" →
      pyStrip (pyLower qp.normalized) = pyStrip (pyLower (rowLookupName row)) →
      matchAgainstEntry qp row =
        [{ match_type := "exact", score := 100, is_match := true,
           match_level := none, details_exact := some true,
           details_breakdown := none, details_matched := none,
           details_match_frac := none,
           target_name := row.name.getD "", source := row.source.getD "",
           list_type := row.list_type.getD "", confidence := "HIGH",
           risk_score := none, risk_level := none }]) ∧
    (pyStrip (pyLower qp.normalized) ≠ pyStrip (pyLower (rowLookupName row)) →
      ((matchAgainstEntry qp row).filter
        (fun m => m.match_type = "exact")).length = 0 ∧
      ((matchAgainstEntry qp row).filter
        (fun m => m.match_type = "fuzzy")).length ≤ 1 ∧
      ((matchAgainstEntry qp row).filter
        (fun m => m.match_type = "token")).length ≤ 1 ∧
      ∀ m ∈ matchAgainstEntry qp row,
        m.match_type = "fuzzy" ∨ m.match_type = "token") := by
  constructor
  · intro hname heq
    unfold matchAgainstEntry
    rw [if_neg hname]
    have him : (exactMatch qp.normalized (rowLookupName row)).is_match = true := by
      simp [exactMatch, heq]
    rw [if_pos him]
    simp [exactMatch, heq]
  · intro hneq
    have him : (exactMatch qp.normalized (rowLookupName row)).is_match = false := by
      simp [exactMatch, hneq]
    by_cases hname : rowLookupName row = ""
    · unfold matchAgainstEntry
      rw [if_pos hname]
      exact ⟨rfl, by simp, by simp, by simp⟩
    · unfold matchAgainstEntry
      rw [if_neg hname, if_neg (by rw [him]; exact Bool.false_ne_true)]
      dsimp only
      refine ⟨?_, ?_, ?_, ?_⟩ <;> split_ifs <;> simp

theorem match_against_entry_amended_witness :
    matchAgainstEntry (processSingle "Abba") (ingestRow "Abba" "OFAC" "SDN") =
      [{ match_type := "exact", score := 100, is_match := true,
         match_level := none, details_exact := some true,
         details_breakdown := none, details_matched := none,
         details_match_frac := none,
         target_name := (ingestRow "Abba" "OFAC" "SDN").name.getD "",
         source := (ingestRow "Abba" "OFAC" "SDN").source.getD "",
         list_type := (ingestRow "Abba" "OFAC" "SDN").list_type.getD "",
         confidence := "HIGH", risk_score := none, risk_level := none }] :=
  (match_against_entry_amended (processSingle "Abba")
    (ingestRow "Abba" "OFAC" "SDN")).1 (by decide) (by decide)

/-! ### Ranking: order, permutation and stability -/

/-- Sort key written as the specification states it: the same fixed
priority table as risk scoring, with unknown sources defaulting to 50. -/
def specRankKey (m : MatchRec) : ℚ × ℚ × ℚ :=
  (m.risk_score.getD 0, listPriorities m.source 50, m.score)

/-- Reading the priority table with default 0 or with default 50 gives
the same comparisons and the same equalities, because every value in the
table exceeds both defaults. -/
theorem listPriorities_defaults (s1 s2 : String) :
    (listPriorities s1 0 ≤ listPriorities s2 0 ↔
      listPriorities s1 50 ≤ listPriorities s2 50) ∧
    (listPriorities s1 0 = listPriorities s2 0 ↔
      listPriorities s1 50 = listPriorities s2 50) := by
  unfold listPriorities
  split_ifs <;> norm_num

theorem lexGe_rank_eq_spec (m1 m2 : MatchRec) :
    lexGe (rankKey m1) (rankKey m2) = lexGe (specRankKey m1) (specRankKey m2) := by
  have e1 : qLt (listPriorities m2.source 0) (listPriorities m1.source 0) =
      qLt (listPriorities m2.source 50) (listPriorities m1.source 50) := by
    rw [qLt_eq, qLt_eq]
    refine decide_eq_decide.mpr ?_
    rw [lt_iff_not_le, lt_iff_not_le]
    exact not_congr (listPriorities_defaults m1.source m2.source).1
  have e2 : (decide (listPriorities m1.source 0 = listPriorities m2.source 0)) =
      (decide (listPriorities m1.source 50 = listPriorities m2.source 50)) :=
    decide_eq_decide.mpr (listPriorities_defaults m1.source m2.source).2
  unfold lexGe rankKey specRankKey
  dsimp only
  rw [e1, e2]

theorem lexGe_refl (x : ℚ × ℚ × ℚ) : lexGe x x = true := by
  simp [lexGe, qLe_iff]

theorem lexGe_total (x y : ℚ × ℚ × ℚ) : lexGe x y = true ∨ lexGe y x = true := by
  simp only [lexGe, Bool.or_eq_true, Bool.and_eq_true, decide_eq_true_eq,
    qLt_iff, qLe_iff]
  rcases lt_trichotomy x.1 y.1 with h | h | h
  · right; left; exact h
  · rcases lt_trichotomy x.2.1 y.2.1 with g | g | g
    · right; right; exact ⟨h.symm, Or.inl g⟩
    · rcases le_total x.2.2 y.2.2 with f | f
      · right; right; exact ⟨h.symm, Or.inr ⟨g.symm, f⟩⟩
      · left; right; exact ⟨h, Or.inr ⟨g, f⟩⟩
    · left; right; exact ⟨h, Or.inl g⟩
  · left; left; exact h

theorem lexGe_trans (x y z : ℚ × ℚ × ℚ) (h1 : lexGe x y = true)
    (h2 : lexGe y z = true) : lexGe x z = true := by
  simp only [lexGe, Bool.or_eq_true, Bool.and_eq_true, decide_eq_true_eq,
    qLt_iff, qLe_iff] at h1 h2 ⊢
  rcases h1 with h1 | ⟨e1, h1'⟩ <;> rcases h2 with h2 | ⟨e2, h2'⟩
  · left; exact lt_trans h2 h1
  · left; rw [← e2]; exact h1
  · left; rw [e1]; exact h2
  · right
    refine ⟨e1.trans e2, ?_⟩
    rcases h1' with g1 | ⟨f1, g1'⟩ <;> rcases h2' with g2 | ⟨f2, g2'⟩
    · left; exact lt_trans g2 g1
    · left; rw [← f2]; exact g1
    · left; rw [f1]; exact g2
    · right; exact ⟨f1.trans f2, le_trans g2' g1'⟩

theorem insertRanked_perm (key : MatchRec → ℚ × ℚ × ℚ) (m : MatchRec)
    (l : List MatchRec) : (insertRanked key m l).Perm (m :: l) := by
  induction l with
  | nil => exact List.Perm.refl _
  | cons x xs ih =>
    unfold insertRanked
    split_ifs with h
    · exact List.Perm.refl _
    · exact (ih.cons x).trans (List.Perm.swap m x xs)

theorem sortRanked_perm (key : MatchRec → ℚ × ℚ × ℚ) (l : List MatchRec) :
    (sortRanked key l).Perm l := by
  induction l with
  | nil => exact List.Perm.refl _
  | cons x xs ih =>
    exact (insertRanked_perm key x (sortRanked key xs)).trans (ih.cons x)

theorem insertRanked_pairwise (m : MatchRec) (l : List MatchRec)
    (hl : l.Pairwise (fun a b => lexGe (rankKey a) (rankKey b) = true)) :
    (insertRanked rankKey m l).Pairwise
      (fun a b => lexGe (rankKey a) (rankKey b) = true) := by
  induction l with
  | nil => simp [insertRanked]
  | cons x xs ih =>
    rcases List.pairwise_cons.mp hl with ⟨hx, hxs⟩
    unfold insertRanked
    split_ifs with h
    · refine List.pairwise_cons.mpr ⟨?_, hl⟩
      intro b hb
      rcases List.mem_cons.mp hb with rfl | hb'
      · exact h
      · exact lexGe_trans _ _ _ h (hx b hb')
    · refine List.pairwise_cons.mpr ⟨?_, ih hxs⟩
      intro b hb
      have hmem := (insertRanked_perm rankKey m xs).mem_iff.mp hb
      rcases List.mem_cons.mp hmem with rfl | hb'
      · rcases lexGe_total (rankKey b) (rankKey x) with ht | ht
        · exact absurd ht h
        · exact ht
      · exact hx b hb'

theorem rankMatches_pairwise (ms : List MatchRec) :
    (rankMatches ms).Pairwise
      (fun a b => lexGe (rankKey a) (rankKey b) = true) := by
  unfold rankMatches
  induction ms with
  | nil => simp [sortRanked]
  | cons x xs ih => exact insertRanked_pairwise x (sortRanked rankKey xs) ih

/-- Equal spec keys force equal ranking keys (the only difference is the
priority default, and the defaults agree on equality). -/
theorem specRankKey_eq_rankKey_eq (a b : MatchRec)
    (h : specRankKey a = specRankKey b) : rankKey a = rankKey b := by
  obtain ⟨h1, h23⟩ := Prod.ext_iff.mp h
  obtain ⟨h2, h3⟩ := Prod.ext_iff.mp h23
  unfold specRankKey at h1 h2 h3
  dsimp only at h1 h2 h3
  unfold rankKey
  rw [h1, h3, (listPriorities_defaults a.source b.source).2.mpr h2]

theorem filter_insertRanked (m : MatchRec) (l : List MatchRec) (k : ℚ × ℚ × ℚ) :
    (insertRanked rankKey m l).filter (fun x => decide (specRankKey x = k)) =
      if specRankKey m = k then
        m :: l.filter (fun x => decide (specRankKey x = k))
      else l.filter (fun x => decide (specRankKey x = k)) := by
  induction l with
  | nil =>
    unfold insertRanked
    by_cases h : specRankKey m = k <;> simp [h]
  | cons x xs ih =>
    by_cases hge : lexGe (rankKey m) (rankKey x) = true
    · unfold insertRanked
      rw [if_pos hge]
      by_cases hm : specRankKey m = k
      · rw [if_pos hm, List.filter_cons_of_pos (by simp [hm])]
      · rw [if_neg hm, List.filter_cons_of_neg (by simp [hm])]
    · unfold insertRanked
      rw [if_neg hge]
      by_cases hx : specRankKey x = k
      · by_cases hm : specRankKey m = k
        · exfalso
          apply hge
          rw [specRankKey_eq_rankKey_eq m x (hm.trans hx.symm)]
          exact lexGe_refl _
        · rw [List.filter_cons_of_pos (by simp [hx]), ih, if_neg hm, if_neg hm,
            List.filter_cons_of_pos (by simp [hx])]
      · rw [List.filter_cons_of_neg (by simp [hx]), ih]
        by_cases hm : specRankKey m = k
        · rw [if_pos hm, if_pos hm, List.filter_cons_of_neg (by simp [hx])]
        · rw [if_neg hm, if_neg hm, List.filter_cons_of_neg (by simp [hx])]

/-- C9: ranking sorts the match list descending by the
(risk_score, list_priority, raw score) tuple — with the same fixed
priority table the risk scorer uses, unknown sources defaulting to 50 —
is a permutation of its input, and is stable: matches with fully equal
key tuples keep their relative input order. -/
theorem rank_matches_sorted_stable (ms : List MatchRec) :
    (rankMatches ms).Pairwise
      (fun a b => lexGe (specRankKey a) (specRankKey b) = true) ∧
    (rankMatches ms).Perm ms ∧
    (∀ k : ℚ × ℚ × ℚ,
      (rankMatches ms).filter (fun x => decide (specRankKey x = k)) =
        ms.filter (fun x => decide (specRankKey x = k))) ∧
    (∀ m, specRankKey m =
      (m.risk_score.getD 0, listPriorities m.source 50, m.score)) ∧
    (∀ x y : ℚ × ℚ × ℚ, lexGe x y = true ↔
      (y.1 < x.1 ∨ (x.1 = y.1 ∧ (y.2.1 < x.2.1 ∨
        (x.2.1 = y.2.1 ∧ y.2.2 ≤ x.2.2))))) := by
  refine ⟨?_, sortRanked_perm rankKey ms, ?_, fun m => rfl, ?_⟩
  · exact (rankMatches_pairwise ms).imp
      (fun {a b} h => lexGe_rank_eq_spec a b ▸ h)
  · intro k
    unfold rankMatches
    induction ms with
    | nil => rfl
    | cons x xs ih =>
      show (insertRanked rankKey x (sortRanked rankKey xs)).filter _ = _
      rw [filter_insertRanked]
      by_cases hx : specRankKey x = k
      · rw [if_pos hx, ih, List.filter_cons_of_pos (by simp [hx])]
      · rw [if_neg hx, ih, List.filter_cons_of_neg (by simp [hx])]
  · intro x y
    simp only [lexGe, Bool.or_eq_true, Bool.and_eq_true, decide_eq_true_eq,
      qLt_iff, qLe_iff]

/-- C10: every match in the ranked list returned by the matching engine
has risk score at least the LOW threshold (60); the summary is always
computed from that already-pruned ranked list; and for a full-length
query the match list is exactly the ranked significance-filtered scored
matches, so sub-threshold matches are dropped before ranking and before
the summary. -/
theorem ranked_matches_at_least_low (q : String) (rows : List SanctionRow)
    (m : MatchRec) (h : m ∈ (screenName q rows).matches_list) :
    LOW_RISK_THRESHOLD ≤ m.risk_score.getD 0 ∧
    LOW_RISK_THRESHOLD = 60 ∧
    (screenName q rows).summary =
      createMatchSummary (screenName q rows).matches_list ∧
    (¬ (q = "" ∨ (pyStrip q).length < MIN_NAME_LENGTH) →
      (screenName q rows).matches_list =
        rankMatches ((scoreMatches (rows.flatMap
          (matchAgainstEntry (processSingle q)))).filter
          (fun mm => qLe LOW_RISK_THRESHOLD (mm.risk_score.getD 0)))) := by
  refine ⟨?_, rfl, ?_, ?_⟩
  · unfold screenName at h
    by_cases hc : q = "" ∨ (pyStrip q).length < MIN_NAME_LENGTH
    · rw [if_pos hc] at h
      simp at h
    · rw [if_neg hc] at h
      dsimp only at h
      have hmem := (sortRanked_perm rankKey _).mem_iff.mp h
      exact (qLe_iff _ _).mp (List.mem_filter.mp hmem).2
  · unfold screenName
    split <;> rfl
  · intro hc
    unfold screenName
    rw [if_neg hc]

theorem ranked_matches_at_least_low_witness :
    LOW_RISK_THRESHOLD ≤ abbaExactRec.risk_score.getD 0 :=
  (ranked_matches_at_least_low "Abba" [ingestRow "Abba" "OFAC" "SDN"]
    abbaExactRec (by decide)).1

end SLST
